import Mathlib

/-!
# Scene controller of `src/main.js`

A shallow embedding of the glue code of the browser demo: camera commands
(`moveCameraForward`, `moveCameraBackward`, `rotateCameraAroundBench`), the
keyboard and mouse handlers, the tree post-process of `loadTree` and the
animation step `animate`.

Numbers live in an ordered field `K` (the rationals for evaluation, the reals
for the trigonometric statements); `Math.PI`, `Math.cos`, `Math.sin` and
`Math.sqrt` are supplied by a `MathEnv K`.  JavaScript exceptions are explicit:
a handler returns the state it leaves behind together with the fault, if any,
that aborted it.
-/

namespace SceneController

/-! ## Values -/

/-- The numeric library the source calls through `Math`. -/
structure MathEnv (K : Type) where
  PI : K
  cos : K → K
  sin : K → K
  sqrt : K → K

/-- Uncaught JavaScript exceptions; the source can only raise a `TypeError`
(property access on `undefined`). -/
inductive Fault where
  | typeError
  deriving DecidableEq, Repr

/-- What a handler leaves behind: the (possibly half-updated) state and the
fault that aborted it, `none` when it ran to completion. -/
structure Outcome (σ : Type) where
  state : σ
  fault : Option Fault

/-- Mutable 3-vector (`THREE.Vector3`). -/
@[ext]
structure Vector3 (K : Type) where
  x : K
  y : K
  z : K

section Vec

variable {K : Type} [LinearOrderedField K]

/-- Componentwise difference, `a.sub(b)`. -/
def Vector3.sub (a b : Vector3 K) : Vector3 K :=
  ⟨a.x - b.x, a.y - b.y, a.z - b.z⟩

/-- Scaling, `v.multiplyScalar(s)`. -/
def Vector3.multiplyScalar (v : Vector3 K) (s : K) : Vector3 K :=
  ⟨v.x * s, v.y * s, v.z * s⟩

/-- The update `this.addScaledVector(v, s)`: `this += v * s`. -/
def Vector3.addScaledVector (p v : Vector3 K) (s : K) : Vector3 K :=
  ⟨p.x + v.x * s, p.y + v.y * s, p.z + v.z * s⟩

/-- Squared Euclidean length. -/
def Vector3.lengthSq (v : Vector3 K) : K :=
  v.x * v.x + v.y * v.y + v.z * v.z

/-- Euclidean length, `Math.sqrt(lengthSq)`. -/
def Vector3.length (M : MathEnv K) (v : Vector3 K) : K :=
  M.sqrt v.lengthSq

/-- The library normalisation `v.divideScalar(v.length() || 1)`: a vector of
length zero is divided by one. -/
def Vector3.normalize (M : MathEnv K) (v : Vector3 K) : Vector3 K :=
  let l := v.length M
  let d := if l = 0 then 1 else l
  ⟨v.x / d, v.y / d, v.z / d⟩

/-- Sign flip of every component. -/
def Vector3.negate (v : Vector3 K) : Vector3 K :=
  ⟨-v.x, -v.y, -v.z⟩

end Vec

/-! ## Camera -/

/-- The perspective camera: its position and its orientation, the latter kept
as the unit view direction that `getWorldDirection` reports. -/
structure Camera (K : Type) where
  position : Vector3 K
  direction : Vector3 K

section Cam

variable {K : Type} [LinearOrderedField K]

/-- Modelled from the spec: `camera.getWorldDirection(v)` of the rendering
library, which is not part of the repository; it stores the unit view
direction of the camera in `v`. -/
def Camera.getWorldDirection (c : Camera K) : Vector3 K :=
  c.direction

/-- Modelled from the spec: `camera.lookAt(target)` of the rendering library,
which is not part of the repository; it re-aims the view direction from the
current position at `target`.  As in the library, the axis `position - target`
is replaced by `(0, 0, 1)` when the two points coincide, then normalised; the
camera looks down the negated axis. -/
def Camera.lookAt (M : MathEnv K) (target : Vector3 K) (c : Camera K) : Camera K :=
  let z := c.position.sub target
  let z := if z.lengthSq = 0 then { z with z := 1 } else z
  { c with direction := (z.normalize M).negate }

end Cam

/-! ## Scene objects -/

/-- Rendered side of a material (`THREE.FrontSide`, ...). -/
inductive Side where
  | FrontSide
  | BackSide
  | DoubleSide
  deriving DecidableEq, Repr

/-- Modelled from the spec: `THREE.Color` of the rendering library, kept as the
integer that `setHex` stores (`0xRRGGBB` for a 24-bit colour). -/
structure Color where
  hex : Int
  deriving DecidableEq, Repr

/-- A material as far as the source reads or writes it.  A material that was
given no name carries the library default, the empty string (`name = some ""`);
`name = none` is a `name` property that evaluates to `undefined`, which the
model loader never hands over; `map = none` is no texture; `kind` is the
material class. -/
structure Material where
  kind : String
  name : Option String
  color : Color
  map : Option Nat
  side : Side
  deriving DecidableEq, Repr

/-- A scene-graph object as far as the source reads or writes it: the `isMesh`
flag, the `material` slot (`none` when falsy) and the tag `userData.isLeaf`
(`false` when absent).  Every object owns its material: the only materials the
source writes to are those of tagged meshes, each of which was allocated for
that mesh alone by `new THREE.MeshPhongMaterial` in `loadTree`. -/
structure Object3D where
  isMesh : Bool
  material : Option Material
  isLeaf : Bool
  deriving DecidableEq, Repr

/-- A loaded model (`gltf.scene`): an object with its children. -/
inductive SceneNode where
  | mk (object : Object3D) (children : List SceneNode)

/-- The whole program state: the globals `camera`, `sunlight` (its position),
`bench` (its position; `none` while the variable is still `undefined`) and
`scene` (every object in the graph, in insertion and traversal order; an
object is identified by its index). -/
structure State (K : Type) where
  camera : Camera K
  sunlight : Vector3 K
  bench : Option (Vector3 K)
  scene : List Object3D

/-! ## Tree post-process (`loadTree`) -/

/-- The string test `s.includes(pat)`: `pat` occurs in `s` as a contiguous
run of characters. -/
def includes (s pat : String) : Bool :=
  decide (pat.data <:+: s.data)

/-- The constructor call `new THREE.MeshPhongMaterial({ color, map, side })`
of `loadTree`: a new, unnamed (empty name) Phong material carrying the given
colour, texture and side. -/
def MeshPhongMaterial (color : Color) (map : Option Nat) (side : Side) : Material :=
  { kind := "MeshPhongMaterial", name := some "", color := color, map := map, side := side }

/-- The callback that `loadTree` passes to `tree.traverse`.  The test is
`object.isMesh && (object.material && object.material.name.includes('Leaf'))`;
calling `includes` on an `undefined` name raises a `TypeError` before the
object is touched. -/
def tagLeaf (object : Object3D) : Outcome Object3D :=
  if object.isMesh then
    match object.material with
    | none => ⟨object, none⟩
    | some material =>
      match material.name with
      | none => ⟨object, some Fault.typeError⟩
      | some name =>
        if includes name "Leaf" then
          ⟨{ object with
              isLeaf := true
              material := some (MeshPhongMaterial material.color material.map Side.DoubleSide) },
            none⟩
        else ⟨object, none⟩
  else ⟨object, none⟩

mutual

/-- The library walk `node.traverse(callback)`: the callback runs on the node,
then the walk descends into the children in order.  A fault stops the walk
where it occurs; what was updated before stays updated. -/
def SceneNode.traverse (callback : Object3D → Outcome Object3D) : SceneNode → Outcome SceneNode
  | SceneNode.mk object children =>
    match callback object with
    | ⟨object1, some e⟩ => ⟨SceneNode.mk object1 children, some e⟩
    | ⟨object1, none⟩ =>
      match SceneNode.traverseChildren callback children with
      | ⟨children1, e⟩ => ⟨SceneNode.mk object1 children1, e⟩

/-- The loop over `children` inside `traverse`. -/
def SceneNode.traverseChildren (callback : Object3D → Outcome Object3D) :
    List SceneNode → Outcome (List SceneNode)
  | [] => ⟨[], none⟩
  | child :: rest =>
    match SceneNode.traverse callback child with
    | ⟨child1, some e⟩ => ⟨child1 :: rest, some e⟩
    | ⟨child1, none⟩ =>
      match SceneNode.traverseChildren callback rest with
      | ⟨rest1, e⟩ => ⟨child1 :: rest1, e⟩

end

mutual

/-- Every object of a loaded model, in the order `traverse` visits them. -/
def SceneNode.objects : SceneNode → List Object3D
  | SceneNode.mk object children => object :: SceneNode.objectsOfChildren children

/-- The objects of a list of subtrees, in traversal order. -/
def SceneNode.objectsOfChildren : List SceneNode → List Object3D
  | [] => []
  | child :: rest => SceneNode.objects child ++ SceneNode.objectsOfChildren rest

end

section Handlers

variable {K : Type} [LinearOrderedField K] [FloorRing K]

set_option linter.unusedVariables false in
/-- The success callback of `loadTree(loader, x, z)`, run on the loaded
`gltf.scene`: place the tree, tag its leaves, add it to the scene.  The
position written by `tree.position.set(x, 0, z)` is never read back by the
program and is not kept.  A fault in the walk leaves the callback before
`scene.add(tree)`. -/
def loadTree (gltf : SceneNode) (x z : K) (st : State K) : Outcome (State K) :=
  match gltf.traverse tagLeaf with
  | ⟨_, some e⟩ => ⟨st, some e⟩
  | ⟨tree, none⟩ => ⟨{ st with scene := st.scene ++ tree.objects }, none⟩

/-- The success callbacks of the park and sun loads in `loadModels`:
`scene.add(gltf.scene)` after placing it. -/
def loadModels_static (gltf : SceneNode) (st : State K) : Outcome (State K) :=
  ⟨{ st with scene := st.scene ++ gltf.objects }, none⟩

/-- The success callback of the bench load in `loadModels`: bind `bench`, put
it at `(-11, 0, 0)`, add it to the scene and aim the camera at it. -/
def loadModels_bench (M : MathEnv K) (gltf : SceneNode) (st : State K) : Outcome (State K) :=
  let position : Vector3 K := ⟨-11, 0, 0⟩
  ⟨{ st with
      bench := some position
      scene := st.scene ++ gltf.objects
      camera := st.camera.lookAt M position },
    none⟩

/-! ## Camera commands -/

/-- The command `moveCameraForward()`.  `bench.position` is evaluated after the
position has been displaced; with `bench` still `undefined` that raises a
`TypeError`. -/
def moveCameraForward (M : MathEnv K) (st : State K) : Outcome (State K) :=
  let vector := st.camera.getWorldDirection
  let camera := { st.camera with position := st.camera.position.addScaledVector vector (-1) }
  match st.bench with
  | none => ⟨{ st with camera := camera }, some Fault.typeError⟩
  | some position => ⟨{ st with camera := camera.lookAt M position }, none⟩

/-- The command `moveCameraBackward()`. -/
def moveCameraBackward (M : MathEnv K) (st : State K) : Outcome (State K) :=
  let vector := st.camera.getWorldDirection
  let camera := { st.camera with position := st.camera.position.addScaledVector vector 1 }
  match st.bench with
  | none => ⟨{ st with camera := camera }, some Fault.typeError⟩
  | some position => ⟨{ st with camera := camera.lookAt M position }, none⟩

/-- The command `rotateCameraAroundBench(clockwise)`.  `bench.position.x` is
read first; with `bench` still `undefined` that raises a `TypeError` before
anything is written. -/
def rotateCameraAroundBench (M : MathEnv K) (clockwise : Bool) (st : State K) :
    Outcome (State K) :=
  let angle := if clockwise then -M.PI / 36 else M.PI / 36
  match st.bench with
  | none => ⟨st, some Fault.typeError⟩
  | some position =>
    let offsetX := st.camera.position.x - position.x
    let offsetZ := st.camera.position.z - position.z
    let cosAngle := M.cos angle
    let sinAngle := M.sin angle
    let camera := { st.camera with
      position := { st.camera.position with
        x := position.x + offsetX * cosAngle - offsetZ * sinAngle
        z := position.z + offsetX * sinAngle + offsetZ * cosAngle } }
    ⟨{ st with camera := camera.lookAt M position }, none⟩

/-- The handler `onDocumentKeyDown(event)`, as a function of `event.which`. -/
def onDocumentKeyDown (M : MathEnv K) (keyCode : Nat) (st : State K) : Outcome (State K) :=
  match keyCode with
  | 87 => moveCameraForward M st
  | 83 => moveCameraBackward M st
  | 65 => rotateCameraAroundBench M true st
  | 68 => rotateCameraAroundBench M false st
  | _ => ⟨st, none⟩

/-! ## Picker -/

/-- The colour `new THREE.Color(v)` for a number `v`: the library hands `v` to
`setHex`, which keeps the three low bytes of `Math.floor(v)`. -/
def Color.ofNumber (v : K) : Color :=
  ⟨⌊v⌋ % 16777216⟩

/-- The body of the `forEach` in `onDocumentMouseDown` for one intersection:
the object hit (by index into the scene) and the value `Math.random()` returns
for it.  An index outside the scene, which the ray query never returns, is
skipped. -/
def recolor (intersect : Nat × K) (st : State K) : Outcome (State K) :=
  match st.scene[intersect.1]? with
  | none => ⟨st, none⟩
  | some object =>
    if object.isLeaf then
      let newColor := Color.ofNumber (intersect.2 * 0xffffff)
      match object.material with
      | none => ⟨st, some Fault.typeError⟩
      | some material =>
        ⟨{ st with
            scene := st.scene.set intersect.1
              { object with material := some { material with color := newColor } } },
          none⟩
    else ⟨st, none⟩

/-- The loop `array.forEach(f)` over a state: elements in order, a fault stops
the loop. -/
def forEach {α σ : Type} (f : α → σ → Outcome σ) : List α → σ → Outcome σ
  | [], s => ⟨s, none⟩
  | a :: rest, s =>
    match f a s with
    | ⟨s1, some e⟩ => ⟨s1, some e⟩
    | ⟨s1, none⟩ => forEach f rest s1

/-- The handler `onDocumentMouseDown(event)`, as a function of the list
`intersects` the ray query returns, each entry paired with the random draw
made for it. -/
def onDocumentMouseDown (intersects : List (Nat × K)) (st : State K) : Outcome (State K) :=
  forEach recolor intersects st

/-! ## Animation and start-up -/

/-- One call of `animate()`: advance the light, wrap it past 20.  The render
call reads the state and changes none of it. -/
def animate (st : State K) : State K :=
  let x := st.sunlight.x + 0.05
  { st with sunlight := { st.sunlight with x := if x > 20 then -30 else x } }

/-- The ambient light added by `init`: not a mesh, no material. -/
def ambientLight : Object3D :=
  { isMesh := false, material := none, isLeaf := false }

/-- The directional light added by `setupSunlight`: not a mesh, no material. -/
def directionalLight : Object3D :=
  { isMesh := false, material := none, isLeaf := false }

/-- The lens flare attached to the light by `setupSunlight`: a library mesh
with its own untagged basic material. -/
def lensflare : Object3D :=
  { isMesh := true
    material := some
      { kind := "MeshBasicMaterial", name := some "", color := ⟨0xffffff⟩, map := none,
        side := Side.FrontSide }
    isLeaf := false }

/-- The state `init()` leaves: camera at `(0, 5, 30)` in its default
orientation (looking down the negative z axis), the ambient light, the
sunlight of `setupSunlight` at `(-30, 10, -10)` with its flare, no model loaded
yet, and the first call of `animate()` already made. -/
def init : State K :=
  animate
    { camera := { position := ⟨0, 5, 30⟩, direction := ⟨0, 0, -1⟩ }
      sunlight := ⟨-30, 10, -10⟩
      bench := none
      scene := [ambientLight, directionalLight, lensflare] }

/-! ## Runs -/

/-- What can happen after `init`: a load completes, a key goes down, the mouse
goes down, the display refreshes. -/
inductive Event (K : Type) where
  | parkLoaded (gltf : SceneNode)
  | sunLoaded (gltf : SceneNode)
  | benchLoaded (gltf : SceneNode)
  | treeLoaded (gltf : SceneNode) (x z : K)
  | keydown (keyCode : Nat)
  | mousedown (intersects : List (Nat × K))
  | animationFrame

/-- The callback the event runs. -/
def dispatch (M : MathEnv K) : Event K → State K → Outcome (State K)
  | Event.parkLoaded gltf, st => loadModels_static gltf st
  | Event.sunLoaded gltf, st => loadModels_static gltf st
  | Event.benchLoaded gltf, st => loadModels_bench M gltf st
  | Event.treeLoaded gltf x z, st => loadTree gltf x z st
  | Event.keydown keyCode, st => onDocumentKeyDown M keyCode st
  | Event.mousedown intersects, st => onDocumentMouseDown intersects st
  | Event.animationFrame, st => ⟨animate st, none⟩

/-- The model a load delivers, if the event is a load. -/
def Event.payload : Event K → Option SceneNode
  | Event.parkLoaded gltf => some gltf
  | Event.sunLoaded gltf => some gltf
  | Event.benchLoaded gltf => some gltf
  | Event.treeLoaded gltf _ _ => some gltf
  | _ => none

/-- A model comes from the loader without the tag `userData.isLeaf`, which
only `loadTree` writes. -/
def Event.Admissible (ev : Event K) : Prop :=
  ∀ gltf, ev.payload = some gltf → ∀ object ∈ gltf.objects, object.isLeaf = false

/-- The states of the program: `init`, then any sequence of events; a callback
that faults leaves the state it had reached. -/
inductive Reachable (M : MathEnv K) : State K → Prop where
  | init : Reachable M init
  | step (ev : Event K) (st : State K) :
      Reachable M st → ev.Admissible → Reachable M (dispatch M ev st).state

/-- The state after `n` display refreshes. -/
def animateRun : Nat → State K → State K
  | 0, st => st
  | n + 1, st => animate (animateRun n st)

end Handlers

/-! ## Sample models -/

/-- A small tree model: a group holding a leaf mesh and a bark mesh. -/
def sampleTree : SceneNode :=
  SceneNode.mk { isMesh := false, material := none, isLeaf := false }
    [SceneNode.mk
      { isMesh := true
        material := some
          { kind := "MeshStandardMaterial", name := some "Leaf_Material", color := ⟨0x228b22⟩,
            map := some 1, side := Side.FrontSide }
        isLeaf := false } [],
     SceneNode.mk
      { isMesh := true
        material := some
          { kind := "MeshStandardMaterial", name := some "Bark", color := ⟨0x8b4513⟩,
            map := some 2, side := Side.FrontSide }
        isLeaf := false } []]

/-- A small bench model: a single mesh. -/
def sampleBench : SceneNode :=
  SceneNode.mk
    { isMesh := true
      material := some
        { kind := "MeshStandardMaterial", name := some "Wood", color := ⟨0x8b4513⟩,
          map := none, side := Side.FrontSide }
      isLeaf := false } []

/-- The state right after start-up once the bench load has completed: `init`,
then the bench callback on the sample bench. -/
def afterBenchLoad {K : Type} [LinearOrderedField K] [FloorRing K] (M : MathEnv K) : State K :=
  (dispatch M (Event.benchLoaded sampleBench) init).state

/-! ## Invariants of the runs -/

/-- Every tagged object of the scene has a material. -/
def LeafHasMaterial (scene : List Object3D) : Prop :=
  ∀ object ∈ scene, object.isLeaf = true → ∃ material, object.material = some material

/-- Once the bench is bound the camera is aimed at it: its view direction is
the one `lookAt(bench.position)` gives at its current position. -/
def Aimed {K : Type} [LinearOrderedField K] (M : MathEnv K) (st : State K) : Prop :=
  ∀ position, st.bench = some position →
    st.camera.direction = (st.camera.lookAt M position).direction

/-! ## The walk over a loaded model -/

mutual

theorem SceneNode.traverse_complete (callback : Object3D → Outcome Object3D) :
    ∀ t : SceneNode, (t.traverse callback).fault = none →
      (t.traverse callback).state.objects = t.objects.map (fun o => (callback o).state) ∧
        ∀ o ∈ t.objects, (callback o).fault = none
  | SceneNode.mk object children => by
    intro h
    have ih := SceneNode.traverseChildren_complete callback children
    rw [SceneNode.traverse] at h ⊢
    rcases hc : callback object with ⟨object1, _ | e⟩
    · rw [hc] at h
      simp only at h ⊢
      rcases hr : SceneNode.traverseChildren callback children with ⟨children1, e1⟩
      rw [hr] at h ih
      simp only at h ih ⊢
      obtain ⟨ih1, ih2⟩ := ih h
      refine ⟨?_, ?_⟩
      · simp [SceneNode.objects, ih1, hc]
      · intro o ho
        simp only [SceneNode.objects, List.mem_cons] at ho
        rcases ho with rfl | ho
        · simp [hc]
        · exact ih2 o ho
    · rw [hc] at h
      simp at h

theorem SceneNode.traverseChildren_complete (callback : Object3D → Outcome Object3D) :
    ∀ ts : List SceneNode, (SceneNode.traverseChildren callback ts).fault = none →
      SceneNode.objectsOfChildren (SceneNode.traverseChildren callback ts).state =
          (SceneNode.objectsOfChildren ts).map (fun o => (callback o).state) ∧
        ∀ o ∈ SceneNode.objectsOfChildren ts, (callback o).fault = none
  | [] => by
    intro _
    simp [SceneNode.traverseChildren, SceneNode.objectsOfChildren]
  | child :: rest => by
    intro h
    have ih1 := SceneNode.traverse_complete callback child
    have ih2 := SceneNode.traverseChildren_complete callback rest
    rw [SceneNode.traverseChildren] at h ⊢
    rcases hc : SceneNode.traverse callback child with ⟨child1, _ | e⟩
    · rw [hc] at h ih1
      simp only at h ih1 ⊢
      rcases hr : SceneNode.traverseChildren callback rest with ⟨rest1, e1⟩
      rw [hr] at h ih2
      simp only at h ih2 ⊢
      obtain ⟨a1, a2⟩ := ih1 trivial
      obtain ⟨b1, b2⟩ := ih2 h
      refine ⟨?_, ?_⟩
      · simp [SceneNode.objectsOfChildren, a1, b1]
      · intro o ho
        simp only [SceneNode.objectsOfChildren, List.mem_append] at ho
        rcases ho with ho | ho
        · exact a2 o ho
        · exact b2 o ho
    · rw [hc] at h
      simp at h

end

mutual

theorem SceneNode.traverse_no_fault (callback : Object3D → Outcome Object3D) :
    ∀ t : SceneNode, (∀ o ∈ t.objects, (callback o).fault = none) →
      (t.traverse callback).fault = none
  | SceneNode.mk object children => by
    intro h
    have h0 : (callback object).fault = none := h object (by simp [SceneNode.objects])
    have ih := SceneNode.traverseChildren_no_fault callback children
      (fun o ho => h o (by simp [SceneNode.objects, ho]))
    rw [SceneNode.traverse]
    rcases hc : callback object with ⟨object1, _ | e⟩
    · simp only
      rcases hr : SceneNode.traverseChildren callback children with ⟨children1, e1⟩
      rw [hr] at ih
      exact ih
    · rw [hc] at h0
      cases h0

theorem SceneNode.traverseChildren_no_fault (callback : Object3D → Outcome Object3D) :
    ∀ ts : List SceneNode, (∀ o ∈ SceneNode.objectsOfChildren ts, (callback o).fault = none) →
      (SceneNode.traverseChildren callback ts).fault = none
  | [] => by
    intro _
    simp [SceneNode.traverseChildren]
  | child :: rest => by
    intro h
    have ih1 := SceneNode.traverse_no_fault callback child
      (fun o ho => h o (by simp [SceneNode.objectsOfChildren, ho]))
    have ih2 := SceneNode.traverseChildren_no_fault callback rest
      (fun o ho => h o (by simp [SceneNode.objectsOfChildren, ho]))
    rw [SceneNode.traverseChildren]
    rcases hc : SceneNode.traverse callback child with ⟨child1, _ | e⟩
    · simp only
      rcases hr : SceneNode.traverseChildren callback rest with ⟨rest1, e1⟩
      rw [hr] at ih2
      exact ih2
    · rw [hc] at ih1
      cases ih1

end

/-! ## Animation step -/

section Proofs

variable {K : Type} [LinearOrderedField K]

theorem animate_sunlight_x (st : State K) :
    (animate st).sunlight.x =
      if st.sunlight.x + 0.05 ≤ 20 then st.sunlight.x + 0.05 else -30 := by
  simp only [animate, gt_iff_lt]
  by_cases h : 20 < st.sunlight.x + 0.05
  · rw [if_pos h, if_neg (not_le.mpr h)]
  · rw [if_neg h, if_pos (not_lt.mp h)]

theorem animate_sunlight_x_le (st : State K) : (animate st).sunlight.x ≤ 20 := by
  rw [animate_sunlight_x]
  split_ifs with h
  · exact h
  · norm_num

theorem animate_sunlight_x_reset (st : State K) (h : 20 < st.sunlight.x) :
    (animate st).sunlight.x = -30 := by
  rw [animate_sunlight_x, if_neg]
  intro hle
  have : (0 : K) < 0.05 := by norm_num
  linarith

/-- C6: one animation step turns the light position `x` into `x + 0.05` when
that does not exceed 20 and into exactly -30 otherwise; a value above 20 is
followed by -30; the value after a step is at most 20; and the same three
facts hold between any two consecutive steps of a run. -/
theorem animate_light_sweep (st : State K) :
    ((animate st).sunlight.x =
        if st.sunlight.x + 0.05 ≤ 20 then st.sunlight.x + 0.05 else -30) ∧
      (20 < st.sunlight.x → (animate st).sunlight.x = -30) ∧
      (animate st).sunlight.x ≤ 20 ∧
      ∀ n : Nat,
        ((animateRun (n + 1) st).sunlight.x =
            if (animateRun n st).sunlight.x + 0.05 ≤ 20
            then (animateRun n st).sunlight.x + 0.05 else -30) ∧
          (20 < (animateRun n st).sunlight.x → (animateRun (n + 1) st).sunlight.x = -30) ∧
          (animateRun (n + 1) st).sunlight.x ≤ 20 :=
  ⟨animate_sunlight_x st, animate_sunlight_x_reset st, animate_sunlight_x_le st, fun n =>
    ⟨animate_sunlight_x (animateRun n st), animate_sunlight_x_reset (animateRun n st),
      animate_sunlight_x_le (animateRun n st)⟩⟩

/-! ## Camera commands, by whether the bench is bound -/

theorem moveCameraForward_of_none (M : MathEnv K) (st : State K) (h : st.bench = none) :
    moveCameraForward M st =
      ⟨{ st with camera := { st.camera with
          position := st.camera.position.addScaledVector st.camera.direction (-1) } },
        some Fault.typeError⟩ := by
  simp [moveCameraForward, h, Camera.getWorldDirection]

theorem moveCameraBackward_of_none (M : MathEnv K) (st : State K) (h : st.bench = none) :
    moveCameraBackward M st =
      ⟨{ st with camera := { st.camera with
          position := st.camera.position.addScaledVector st.camera.direction 1 } },
        some Fault.typeError⟩ := by
  simp [moveCameraBackward, h, Camera.getWorldDirection]

theorem rotateCameraAroundBench_of_none (M : MathEnv K) (clockwise : Bool) (st : State K)
    (h : st.bench = none) :
    rotateCameraAroundBench M clockwise st = ⟨st, some Fault.typeError⟩ := by
  simp [rotateCameraAroundBench, h]

theorem moveCameraForward_of_some (M : MathEnv K) (st : State K) (position : Vector3 K)
    (h : st.bench = some position) :
    moveCameraForward M st =
      ⟨{ st with camera := Camera.lookAt M position { st.camera with
          position := st.camera.position.addScaledVector st.camera.direction (-1) } },
        none⟩ := by
  simp [moveCameraForward, h, Camera.getWorldDirection]

theorem moveCameraBackward_of_some (M : MathEnv K) (st : State K) (position : Vector3 K)
    (h : st.bench = some position) :
    moveCameraBackward M st =
      ⟨{ st with camera := Camera.lookAt M position { st.camera with
          position := st.camera.position.addScaledVector st.camera.direction 1 } },
        none⟩ := by
  simp [moveCameraBackward, h, Camera.getWorldDirection]

theorem rotateCameraAroundBench_of_some (M : MathEnv K) (clockwise : Bool) (st : State K)
    (position : Vector3 K) (h : st.bench = some position) :
    rotateCameraAroundBench M clockwise st =
      ⟨{ st with camera := Camera.lookAt M position { st.camera with
          position := { st.camera.position with
            x := position.x +
                (st.camera.position.x - position.x) *
                  M.cos (if clockwise then -M.PI / 36 else M.PI / 36) -
                (st.camera.position.z - position.z) *
                  M.sin (if clockwise then -M.PI / 36 else M.PI / 36)
            z := position.z +
                (st.camera.position.x - position.x) *
                  M.sin (if clockwise then -M.PI / 36 else M.PI / 36) +
                (st.camera.position.z - position.z) *
                  M.cos (if clockwise then -M.PI / 36 else M.PI / 36) } } },
        none⟩ := by
  simp [rotateCameraAroundBench, h]

/-! ## Camera commands before the bench has loaded -/

/-- C3, as the code has it: while `bench` is still `undefined` each of the four
camera commands stops with a `TypeError`.  The two rotations stop before
anything is written and leave the whole state as it was; the two moves stop
after the position has been displaced by -1 (forward) or +1 (backward) times
the view direction, the orientation and the rest of the state being as
before. -/
theorem camera_commands_before_load (M : MathEnv K) (st : State K) (h : st.bench = none) :
    moveCameraForward M st =
        ⟨{ st with camera := { st.camera with
            position := st.camera.position.addScaledVector st.camera.direction (-1) } },
          some Fault.typeError⟩ ∧
      moveCameraBackward M st =
        ⟨{ st with camera := { st.camera with
            position := st.camera.position.addScaledVector st.camera.direction 1 } },
          some Fault.typeError⟩ ∧
      rotateCameraAroundBench M true st = ⟨st, some Fault.typeError⟩ ∧
      rotateCameraAroundBench M false st = ⟨st, some Fault.typeError⟩ := by
  exact ⟨moveCameraForward_of_none M st h, moveCameraBackward_of_none M st h,
    rotateCameraAroundBench_of_none M true st h, rotateCameraAroundBench_of_none M false st h⟩

end Proofs

/-- C3, witness: the state `init` leaves, over the reals. -/
theorem camera_commands_before_load_witness :
    (init : State ℝ).bench = none ∧
      rotateCameraAroundBench (MathEnv.mk Real.pi Real.cos Real.sin Real.sqrt) true
        (init : State ℝ) = ⟨init, some Fault.typeError⟩ :=
  ⟨rfl, (camera_commands_before_load _ init rfl).2.2.1⟩

/-- C3, counterexample: pressing W right after `init`, before the bench has
loaded, faults with a `TypeError`, and the camera has already moved from
`z = 30` to `z = 31` when it does. -/
theorem moveCameraForward_before_load_faults :
    (moveCameraForward (MathEnv.mk Real.pi Real.cos Real.sin Real.sqrt)
        (init : State ℝ)).fault = some Fault.typeError ∧
      (moveCameraForward (MathEnv.mk Real.pi Real.cos Real.sin Real.sqrt)
        (init : State ℝ)).state.camera.position.z = 31 ∧
      (init : State ℝ).camera.position.z = 30 ∧
      (moveCameraForward (MathEnv.mk Real.pi Real.cos Real.sin Real.sqrt)
        (init : State ℝ)).state.camera.position ≠ (init : State ℝ).camera.position := by
  have hz : (moveCameraForward (MathEnv.mk Real.pi Real.cos Real.sin Real.sqrt)
        (init : State ℝ)).state.camera.position.z = 31 := by
    simp [moveCameraForward, init, animate, Camera.getWorldDirection, Vector3.addScaledVector]
    norm_num
  have hz0 : (init : State ℝ).camera.position.z = 30 := rfl
  refine ⟨rfl, hz, hz0, ?_⟩
  intro heq
  rw [heq, hz0] at hz
  norm_num at hz

/-! ## Leaf tagging -/

theorem includes_iff (s pat : String) :
    includes s pat = true ↔ ∃ a b : List Char, a ++ pat.data ++ b = s.data := by
  simp [includes, List.IsInfix, List.append_assoc]

/-- C7: for every object the walk of `loadTree` visits, a mesh whose material
name contains "Leaf" comes out tagged `isLeaf` with a new double-sided Phong
material of the same colour and texture map, without a fault; every other
object comes out exactly as it went in, so untagged and with the material it
had; and that happens without a fault for an object that is not a mesh, has
no material, or has a material name without "Leaf", such as "Bark".  A walk
that completes has applied the callback to every object of the tree, in
order. -/
theorem tagLeaf_spec (gltf : SceneNode) :
    (∀ object ∈ gltf.objects,
      (∀ material name, object.isMesh = true → object.material = some material →
          material.name = some name → includes name "Leaf" = true →
          tagLeaf object =
            ⟨{ isMesh := object.isMesh
               isLeaf := true
               material := some
                { kind := "MeshPhongMaterial", name := some "", color := material.color,
                  map := material.map, side := Side.DoubleSide } },
              none⟩) ∧
        (¬ (∃ material name, object.isMesh = true ∧ object.material = some material ∧
            material.name = some name ∧ includes name "Leaf" = true) →
          (tagLeaf object).state = object) ∧
        ((object.isMesh = false ∨ object.material = none ∨
            ∃ material name, object.material = some material ∧ material.name = some name ∧
              includes name "Leaf" = false) →
          tagLeaf object = ⟨object, none⟩)) ∧
      includes "Bark" "Leaf" = false ∧
      ((gltf.traverse tagLeaf).fault = none →
        (gltf.traverse tagLeaf).state.objects =
          gltf.objects.map (fun object => (tagLeaf object).state)) := by
  refine ⟨fun object _ => ⟨?_, ?_, ?_⟩, by decide,
    fun h => (SceneNode.traverse_complete tagLeaf gltf h).1⟩
  · intro material name h1 h2 h3 h4
    simp [tagLeaf, h1, h2, h3, h4, MeshPhongMaterial]
  · intro h
    unfold tagLeaf
    split_ifs with h1
    · rcases h2 : object.material with _ | material
      · rfl
      · rcases h3 : material.name with _ | name
        · simp [h3]
        · by_cases h4 : includes name "Leaf" = true
          · exact absurd ⟨material, name, h1, h2, h3, h4⟩ h
          · simp [h3, h4]
    · rfl
  · rintro (h1 | h2 | ⟨material, name, h2, h3, h4⟩)
    · simp [tagLeaf, h1]
    · unfold tagLeaf
      split_ifs
      · simp [h2]
      · rfl
    · unfold tagLeaf
      split_ifs
      · simp [h2, h3, h4]
      · rfl

theorem tagLeaf_named (object : Object3D)
    (h : ∀ material, object.material = some material → ∃ name, material.name = some name) :
    (tagLeaf object).fault = none := by
  unfold tagLeaf
  split_ifs
  · rcases h2 : object.material with _ | material
    · rfl
    · obtain ⟨name, h3⟩ := h material h2
      simp only [h3]
      split_ifs <;> rfl
  · rfl

/-- C8: for every loaded tree, as the model loader delivers it (every material
carries a name, the empty string when it was given none), that contains a mesh
whose material has no name: the post-process of `loadTree` completes without a
fault, that mesh comes out of the callback exactly as it went in (not tagged by
it, its material the original one), and the tree is added to the scene, the
mesh with it; nothing else of the state changes. -/
theorem loadTree_unnamed_material {K : Type} (gltf : SceneNode) (x z : K) (st : State K)
    (object : Object3D) (material : Material)
    (hloader : ∀ o ∈ gltf.objects, ∀ m, o.material = some m → ∃ name, m.name = some name)
    (hmem : object ∈ gltf.objects) (hmesh : object.isMesh = true)
    (hmat : object.material = some material) (hname : material.name = some "") :
    (loadTree gltf x z st).fault = none ∧
      tagLeaf object = ⟨object, none⟩ ∧
      (loadTree gltf x z st).state =
        { st with scene := st.scene ++ gltf.objects.map (fun o => (tagLeaf o).state) } ∧
      object ∈ (loadTree gltf x z st).state.scene := by
  have hunnamed : includes "" "Leaf" = false := by decide
  have hobj : tagLeaf object = ⟨object, none⟩ := by
    simp [tagLeaf, hmesh, hmat, hname, hunnamed]
  have hwalk : (gltf.traverse tagLeaf).fault = none :=
    SceneNode.traverse_no_fault tagLeaf gltf (fun o ho => tagLeaf_named o (hloader o ho))
  have hobjects := (SceneNode.traverse_complete tagLeaf gltf hwalk).1
  have hload : loadTree gltf x z st =
      ⟨{ st with scene := st.scene ++ gltf.objects.map (fun o => (tagLeaf o).state) },
        none⟩ := by
    unfold loadTree
    rcases hw : gltf.traverse tagLeaf with ⟨tree, _ | e⟩
    · rw [hw] at hobjects
      simp only at hobjects ⊢
      rw [hobjects]
    · rw [hw] at hwalk
      cases hwalk
  refine ⟨by rw [hload], hobj, by rw [hload], ?_⟩
  rw [hload]
  apply List.mem_append_right
  exact List.mem_map.mpr ⟨object, hmem, by rw [hobj]⟩

/-- C8, witness: a tree with one mesh whose material has no name, loaded right
after `init`; the scene grows from three objects to five. -/
theorem loadTree_unnamed_material_witness :
    (loadTree
        (SceneNode.mk { isMesh := false, material := none, isLeaf := false }
          [SceneNode.mk
            { isMesh := true
              material := some
                { kind := "MeshStandardMaterial", name := some "", color := ⟨0x228b22⟩,
                  map := none, side := Side.FrontSide }
              isLeaf := false } []])
        (-10) 0 (init : State ℚ)).fault = none ∧
      (loadTree
        (SceneNode.mk { isMesh := false, material := none, isLeaf := false }
          [SceneNode.mk
            { isMesh := true
              material := some
                { kind := "MeshStandardMaterial", name := some "", color := ⟨0x228b22⟩,
                  map := none, side := Side.FrontSide }
              isLeaf := false } []])
        (-10) 0 (init : State ℚ)).state.scene.length = 5 ∧
      ({ isMesh := true
         material := some
           { kind := "MeshStandardMaterial", name := some "", color := ⟨0x228b22⟩,
             map := none, side := Side.FrontSide }
         isLeaf := false } : Object3D) ∈
        (loadTree
          (SceneNode.mk { isMesh := false, material := none, isLeaf := false }
            [SceneNode.mk
              { isMesh := true
                material := some
                  { kind := "MeshStandardMaterial", name := some "", color := ⟨0x228b22⟩,
                    map := none, side := Side.FrontSide }
                isLeaf := false } []])
          (-10) 0 (init : State ℚ)).state.scene := by
  have h := loadTree_unnamed_material
    (SceneNode.mk { isMesh := false, material := none, isLeaf := false }
      [SceneNode.mk
        { isMesh := true
          material := some
            { kind := "MeshStandardMaterial", name := some "", color := ⟨0x228b22⟩,
              map := none, side := Side.FrontSide }
          isLeaf := false } []])
    (-10) 0 (init : State ℚ)
    { isMesh := true
      material := some
        { kind := "MeshStandardMaterial", name := some "", color := ⟨0x228b22⟩,
          map := none, side := Side.FrontSide }
      isLeaf := false }
    { kind := "MeshStandardMaterial", name := some "", color := ⟨0x228b22⟩,
      map := none, side := Side.FrontSide }
    (by
      intro o ho m hm
      simp only [SceneNode.objects, SceneNode.objectsOfChildren, List.append_nil,
        List.mem_cons, List.not_mem_nil, or_false] at ho
      rcases ho with rfl | rfl
      · cases hm
      · simp only [Option.some.injEq] at hm
        subst hm
        exact ⟨"", rfl⟩)
    (by simp [SceneNode.objects, SceneNode.objectsOfChildren]) rfl rfl rfl
  exact ⟨h.1, rfl, h.2.2.2⟩

/-! ## Picker -/

section Picker

variable {K : Type} [LinearOrderedField K] [FloorRing K]

theorem Color.ofNumber_random (r : K) (h0 : 0 ≤ r) (h1 : r < 1) :
    Color.ofNumber (r * 0xffffff) = ⟨⌊r * 0xffffff⌋⟩ ∧
      0 ≤ ⌊r * 0xffffff⌋ ∧ ⌊r * 0xffffff⌋ ≤ 0xFFFFFF := by
  have hlo : 0 ≤ ⌊r * 0xffffff⌋ := Int.floor_nonneg.mpr (by positivity)
  have hhi : ⌊r * 0xffffff⌋ < 16777215 := by
    rw [Int.floor_lt]
    have : r * 0xffffff < 1 * 0xffffff := by
      apply mul_lt_mul_of_pos_right h1
      norm_num
    simpa using this
  refine ⟨?_, hlo, by omega⟩
  unfold Color.ofNumber
  congr 1
  omega

theorem recolor_step (st : State K) (hinv : LeafHasMaterial st.scene) (i : Nat) (r : K) :
    ∃ scene1 : List Object3D,
      recolor (i, r) st = ⟨{ st with scene := scene1 }, none⟩ ∧
        scene1.length = st.scene.length ∧ LeafHasMaterial scene1 ∧
        ∀ j object, st.scene[j]? = some object →
          ((j = i ∧ object.isLeaf = true) → ∃ material, object.material = some material ∧
              scene1[j]? = some { object with
                material := some { material with color := Color.ofNumber (r * 0xffffff) } }) ∧
            ((j ≠ i ∨ object.isLeaf = false) → scene1[j]? = some object) := by
  unfold recolor
  rcases hi : st.scene[i]? with _ | hit
  · refine ⟨st.scene, rfl, rfl, hinv, fun j object hj => ⟨?_, fun _ => hj⟩⟩
    rintro ⟨rfl, _⟩
    rw [hi] at hj
    cases hj
  · have hmem : hit ∈ st.scene := List.getElem?_mem hi
    by_cases hleaf : hit.isLeaf = true
    · obtain ⟨material, hm⟩ := hinv hit hmem hleaf
      simp only [hleaf, if_true, hm]
      refine ⟨_, rfl, by simp, ?_, ?_⟩
      · intro object hobj htag
        rcases List.mem_or_eq_of_mem_set hobj with h | h
        · exact hinv object h htag
        · exact ⟨_, by rw [h]⟩
      · intro j object hj
        refine ⟨?_, ?_⟩
        · rintro ⟨rfl, _⟩
          rw [hi] at hj
          cases hj
          have hlt : j < st.scene.length := by
            by_contra hge
            rw [List.getElem?_eq_none (not_lt.mp hge)] at hi
            cases hi
          exact ⟨material, hm, by simp [List.getElem?_set, hlt, hleaf]⟩
        · rintro (hne | hno)
          · rw [List.getElem?_set_ne (Ne.symm hne)]
            exact hj
          · by_cases hji : j = i
            · subst hji
              rw [hi] at hj
              cases hj
              rw [hleaf] at hno
              cases hno
            · rw [List.getElem?_set_ne (Ne.symm hji)]
              exact hj
    · simp only [hleaf]
      refine ⟨st.scene, rfl, rfl, hinv, fun j object hj => ⟨?_, fun _ => hj⟩⟩
      rintro ⟨rfl, htag⟩
      rw [hi] at hj
      cases hj
      exact absurd htag hleaf

theorem forEach_recolor (intersects : List (Nat × K)) :
    ∀ st : State K, LeafHasMaterial st.scene →
      ∃ scene1 : List Object3D,
        forEach recolor intersects st = ⟨{ st with scene := scene1 }, none⟩ ∧
          scene1.length = st.scene.length ∧ LeafHasMaterial scene1 ∧
          ∀ j object, st.scene[j]? = some object →
            ((object.isLeaf = true ∧ j ∈ intersects.map Prod.fst) →
              ∃ r material, (j, r) ∈ intersects ∧ object.material = some material ∧
                scene1[j]? = some { object with
                  material := some { material with color := Color.ofNumber (r * 0xffffff) } }) ∧
              ((object.isLeaf = false ∨ j ∉ intersects.map Prod.fst) →
                scene1[j]? = some object) := by
  induction intersects with
  | nil =>
    intro st hinv
    refine ⟨st.scene, rfl, rfl, hinv, fun j object hj => ⟨?_, fun _ => hj⟩⟩
    rintro ⟨_, hmem⟩
    simp at hmem
  | cons hit rest ih =>
    intro st hinv
    obtain ⟨i, r⟩ := hit
    obtain ⟨scene1, h1, hlen1, hinv1, hspec1⟩ := recolor_step st hinv i r
    obtain ⟨scene2, h2, hlen2, hinv2, hspec2⟩ := ih { st with scene := scene1 } hinv1
    refine ⟨scene2, ?_, by rw [hlen2]; exact hlen1, hinv2, ?_⟩
    · rw [forEach, h1]
      exact h2
    · intro j object hj
      obtain ⟨ha, hb⟩ := hspec1 j object hj
      by_cases hcase : j = i ∧ object.isLeaf = true
      · obtain ⟨material, hm, hj1⟩ := ha hcase
        obtain ⟨hc, hd⟩ := hspec2 j _ hj1
        refine ⟨fun _ => ?_, ?_⟩
        · by_cases hin : j ∈ rest.map Prod.fst
          · obtain ⟨r2, material2, hmem2, hm2, hfin⟩ := hc ⟨hcase.2, hin⟩
            refine ⟨r2, material, List.mem_cons_of_mem _ hmem2, hm, ?_⟩
            simp only [Option.some.injEq] at hm2
            rw [hfin, ← hm2]
          · refine ⟨r, material, ?_, hm, hd (Or.inr hin)⟩
            rw [hcase.1]
            exact List.mem_cons_self _ _
        · rintro (hno | hnot)
          · rw [hcase.2] at hno
            cases hno
          · exact absurd (by simp [hcase.1]) hnot
      · have hj1 : scene1[j]? = some object := by
          apply hb
          by_cases hji : j = i
          · right
            by_contra hl
            exact hcase ⟨hji, by simpa using hl⟩
          · exact Or.inl hji
        obtain ⟨hc, hd⟩ := hspec2 j object hj1
        refine ⟨?_, ?_⟩
        · rintro ⟨htag, hin⟩
          have hin2 : j ∈ rest.map Prod.fst := by
            simp only [List.map_cons, List.mem_cons] at hin
            rcases hin with hji | hin
            · exact absurd ⟨hji, htag⟩ hcase
            · exact hin
          obtain ⟨r2, material2, hmem2, hm2, hfin⟩ := hc ⟨htag, hin2⟩
          exact ⟨r2, material2, List.mem_cons_of_mem _ hmem2, hm2, hfin⟩
        · rintro (hno | hnot)
          · exact hd (Or.inl hno)
          · apply hd
            right
            intro hin
            exact hnot (by simp only [List.map_cons, List.mem_cons]; exact Or.inr hin)

end Picker

/-! ## Invariants along the runs -/

section Invariants

variable {K : Type} [LinearOrderedField K]

theorem Camera.lookAt_position (M : MathEnv K) (target : Vector3 K) (c : Camera K) :
    (c.lookAt M target).position = c.position :=
  rfl

theorem Camera.lookAt_direction_congr (M : MathEnv K) (target : Vector3 K) (c d : Camera K)
    (h : c.position = d.position) :
    (c.lookAt M target).direction = (d.lookAt M target).direction := by
  simp only [Camera.lookAt, h]

theorem Aimed.of_lookAt (M : MathEnv K) (st : State K) (position : Vector3 K) (c : Camera K)
    (h : st.bench = some position) :
    Aimed M { st with camera := c.lookAt M position } := by
  intro p hp
  simp only [h, Option.some.injEq] at hp
  subst hp
  exact Camera.lookAt_direction_congr M _ _ _ rfl

theorem Aimed.of_bench_none (M : MathEnv K) (st : State K) (h : st.bench = none) :
    Aimed M st := by
  intro p hp
  rw [h] at hp
  cases hp

theorem Aimed.congr (M : MathEnv K) (st st1 : State K) (hc : st1.camera = st.camera)
    (hb : st1.bench = st.bench) (h : Aimed M st) : Aimed M st1 := by
  intro p hp
  rw [hc]
  exact h p (hb ▸ hp)

theorem moveCameraForward_inv (M : MathEnv K) (st : State K) :
    (moveCameraForward M st).state.scene = st.scene ∧
      Aimed M (moveCameraForward M st).state := by
  rcases hb : st.bench with _ | position
  · rw [moveCameraForward_of_none M st hb]
    exact ⟨rfl, Aimed.of_bench_none M _ hb⟩
  · rw [moveCameraForward_of_some M st position hb]
    exact ⟨rfl, Aimed.of_lookAt M st position _ hb⟩

theorem moveCameraBackward_inv (M : MathEnv K) (st : State K) :
    (moveCameraBackward M st).state.scene = st.scene ∧
      Aimed M (moveCameraBackward M st).state := by
  rcases hb : st.bench with _ | position
  · rw [moveCameraBackward_of_none M st hb]
    exact ⟨rfl, Aimed.of_bench_none M _ hb⟩
  · rw [moveCameraBackward_of_some M st position hb]
    exact ⟨rfl, Aimed.of_lookAt M st position _ hb⟩

theorem rotateCameraAroundBench_inv (M : MathEnv K) (clockwise : Bool) (st : State K)
    (h : Aimed M st) :
    (rotateCameraAroundBench M clockwise st).state.scene = st.scene ∧
      Aimed M (rotateCameraAroundBench M clockwise st).state := by
  rcases hb : st.bench with _ | position
  · rw [rotateCameraAroundBench_of_none M clockwise st hb]
    exact ⟨rfl, h⟩
  · rw [rotateCameraAroundBench_of_some M clockwise st position hb]
    exact ⟨rfl, Aimed.of_lookAt M st position _ hb⟩

theorem onDocumentKeyDown_inv (M : MathEnv K) (keyCode : Nat) (st : State K) (h : Aimed M st) :
    (onDocumentKeyDown M keyCode st).state.scene = st.scene ∧
      Aimed M (onDocumentKeyDown M keyCode st).state := by
  unfold onDocumentKeyDown
  split
  · exact moveCameraForward_inv M st
  · exact moveCameraBackward_inv M st
  · exact rotateCameraAroundBench_inv M true st h
  · exact rotateCameraAroundBench_inv M false st h
  · exact ⟨rfl, h⟩

theorem tagLeaf_material (object : Object3D) (h : object.isLeaf = false)
    (htag : (tagLeaf object).state.isLeaf = true) :
    ∃ material, (tagLeaf object).state.material = some material := by
  unfold tagLeaf at htag ⊢
  split_ifs at htag ⊢ with h1
  · rcases h2 : object.material with _ | material
    · simp [h2, h] at htag
    · rcases h3 : material.name with _ | name
      · simp [h2, h3, h] at htag
      · by_cases h4 : includes name "Leaf" = true
        · simp [h3, h4]
        · simp [h2, h3, h4, h] at htag
  · simp [h] at htag

theorem LeafHasMaterial.append (scene added : List Object3D) (h : LeafHasMaterial scene)
    (hadd : LeafHasMaterial added) : LeafHasMaterial (scene ++ added) := by
  intro object hmem
  rcases List.mem_append.mp hmem with hm | hm
  · exact h object hm
  · exact hadd object hm

theorem LeafHasMaterial.of_untagged (added : List Object3D)
    (h : ∀ object ∈ added, object.isLeaf = false) : LeafHasMaterial added := by
  intro object hmem htag
  rw [h object hmem] at htag
  cases htag

omit [LinearOrderedField K] in
theorem loadTree_inv (gltf : SceneNode) (x z : K) (st : State K)
    (hgltf : ∀ object ∈ gltf.objects, object.isLeaf = false) (h : LeafHasMaterial st.scene) :
    LeafHasMaterial (loadTree gltf x z st).state.scene ∧
      (loadTree gltf x z st).state.camera = st.camera ∧
      (loadTree gltf x z st).state.bench = st.bench := by
  unfold loadTree
  rcases hw : gltf.traverse tagLeaf with ⟨tree, _ | e⟩
  · refine ⟨?_, rfl, rfl⟩
    have hc := SceneNode.traverse_complete tagLeaf gltf (by rw [hw])
    rw [hw] at hc
    simp only at hc ⊢
    apply LeafHasMaterial.append _ _ h
    rw [hc.1]
    intro object hmem htag
    obtain ⟨source, hsource, rfl⟩ := List.mem_map.mp hmem
    exact tagLeaf_material source (hgltf source hsource) htag
  · exact ⟨h, rfl, rfl⟩

theorem init_inv (M : MathEnv K) : LeafHasMaterial (init : State K).scene ∧ Aimed M init := by
  refine ⟨?_, Aimed.of_bench_none M _ rfl⟩
  apply LeafHasMaterial.of_untagged
  intro object hmem
  simp only [init, animate, List.mem_cons, List.mem_singleton, List.not_mem_nil, or_false]
    at hmem
  rcases hmem with rfl | rfl | rfl <;> rfl

theorem Reachable.inv [FloorRing K] (M : MathEnv K) (st : State K) (h : Reachable M st) :
    LeafHasMaterial st.scene ∧ Aimed M st := by
  induction h with
  | init => exact init_inv M
  | step ev st _ hadm ih =>
    obtain ⟨hleaf, haim⟩ := ih
    cases ev with
    | parkLoaded gltf =>
      exact ⟨LeafHasMaterial.append _ _ hleaf (LeafHasMaterial.of_untagged _ (hadm gltf rfl)),
        Aimed.congr M st _ rfl rfl haim⟩
    | sunLoaded gltf =>
      exact ⟨LeafHasMaterial.append _ _ hleaf (LeafHasMaterial.of_untagged _ (hadm gltf rfl)),
        Aimed.congr M st _ rfl rfl haim⟩
    | benchLoaded gltf =>
      refine ⟨LeafHasMaterial.append _ _ hleaf (LeafHasMaterial.of_untagged _ (hadm gltf rfl)),
        ?_⟩
      intro p hp
      simp only [dispatch, loadModels_bench, Option.some.injEq] at hp ⊢
      subst hp
      exact Camera.lookAt_direction_congr M _ _ _ rfl
    | treeLoaded gltf x z =>
      obtain ⟨h1, h2, h3⟩ := loadTree_inv gltf x z st (hadm gltf rfl) hleaf
      exact ⟨h1, Aimed.congr M st _ h2 h3 haim⟩
    | keydown keyCode =>
      obtain ⟨h1, h2⟩ := onDocumentKeyDown_inv M keyCode st haim
      exact ⟨by simp only [dispatch]; rw [h1]; exact hleaf, h2⟩
    | mousedown intersects =>
      obtain ⟨scene1, h1, _, h3, _⟩ := forEach_recolor intersects st hleaf
      simp only [dispatch, onDocumentMouseDown, h1]
      exact ⟨h3, Aimed.congr M st _ rfl rfl haim⟩
    | animationFrame =>
      exact ⟨hleaf, Aimed.congr M st _ rfl rfl haim⟩

end Invariants

/-- C9: in every state of a run, for every list of intersections the ray query
returns and random draws in `[0, 1)`, the handler completes; it changes
nothing but the scene, which keeps its objects in place; an intersected object
tagged `isLeaf` ends with its material colour set to the integer
`⌊r * 0xffffff⌋` of one of its draws `r`, which lies between 0 and
`0xFFFFFF`, and is otherwise as before; an object that is untagged or not
intersected is exactly as before. -/
theorem onDocumentMouseDown_recolors {K : Type} [LinearOrderedField K] [FloorRing K]
    (M : MathEnv K) (st : State K) (hst : Reachable M st) (intersects : List (Nat × K))
    (hrandom : ∀ hit ∈ intersects, 0 ≤ hit.2 ∧ hit.2 < 1) :
    (onDocumentMouseDown intersects st).fault = none ∧
      (onDocumentMouseDown intersects st).state =
        { st with scene := (onDocumentMouseDown intersects st).state.scene } ∧
      (onDocumentMouseDown intersects st).state.scene.length = st.scene.length ∧
      ∀ j object, st.scene[j]? = some object →
        ((object.isLeaf = true ∧ j ∈ intersects.map Prod.fst) →
          ∃ r material, (j, r) ∈ intersects ∧ object.material = some material ∧
            0 ≤ ⌊r * 0xffffff⌋ ∧ ⌊r * 0xffffff⌋ ≤ 0xFFFFFF ∧
            (onDocumentMouseDown intersects st).state.scene[j]? =
              some { object with
                material := some { material with color := ⟨⌊r * 0xffffff⌋⟩ } }) ∧
          ((object.isLeaf = false ∨ j ∉ intersects.map Prod.fst) →
            (onDocumentMouseDown intersects st).state.scene[j]? = some object) := by
  obtain ⟨scene1, h1, hlen, _, hspec⟩ := forEach_recolor intersects st (Reachable.inv M st hst).1
  unfold onDocumentMouseDown
  rw [h1]
  refine ⟨rfl, rfl, hlen, fun j object hj => ⟨?_, (hspec j object hj).2⟩⟩
  intro hcase
  obtain ⟨r, material, hmem, hm, hfin⟩ := (hspec j object hj).1 hcase
  obtain ⟨hr0, hr1⟩ := hrandom (j, r) hmem
  obtain ⟨hcol, hlo, hhi⟩ := Color.ofNumber_random r hr0 hr1
  exact ⟨r, material, hmem, hm, hlo, hhi, by rw [← hcol]; exact hfin⟩

/-- C9, witness: after `init` and the load of a sample tree, a click whose ray
meets the leaf mesh (object 4) with random draw 1/2. -/
theorem onDocumentMouseDown_recolors_witness :
    Reachable (MathEnv.mk Real.pi Real.cos Real.sin Real.sqrt)
        (dispatch (MathEnv.mk Real.pi Real.cos Real.sin Real.sqrt)
          (Event.treeLoaded sampleTree (-10) 0) init).state ∧
      (∀ hit ∈ [((4 : Nat), (1 / 2 : ℝ))], 0 ≤ hit.2 ∧ hit.2 < 1) ∧
      (onDocumentMouseDown [((4 : Nat), (1 / 2 : ℝ))]
        (dispatch (MathEnv.mk Real.pi Real.cos Real.sin Real.sqrt)
          (Event.treeLoaded sampleTree (-10) 0) init).state).fault = none := by
  have hreach : Reachable (MathEnv.mk Real.pi Real.cos Real.sin Real.sqrt)
      (dispatch (MathEnv.mk Real.pi Real.cos Real.sin Real.sqrt)
        (Event.treeLoaded sampleTree (-10) 0) init).state := by
    apply Reachable.step _ _ Reachable.init
    intro gltf hg object hmem
    simp only [Event.payload, Option.some.injEq] at hg
    subst hg
    simp only [sampleTree, SceneNode.objects, SceneNode.objectsOfChildren, List.append_nil,
      List.mem_cons, List.singleton_append, List.not_mem_nil, or_false] at hmem
    rcases hmem with rfl | rfl | rfl <;> rfl
  have hdraw : ∀ hit ∈ [((4 : Nat), (1 / 2 : ℝ))], 0 ≤ hit.2 ∧ hit.2 < 1 := by
    intro hit hmem
    simp only [List.mem_singleton] at hmem
    subst hmem
    norm_num
  exact ⟨hreach, hdraw, (onDocumentMouseDown_recolors _ _ hreach _ hdraw).1⟩

/-! ## Rotation about the bench, over the reals -/

theorem rotate_false_position (st : State ℝ) (position : Vector3 ℝ)
    (h : st.bench = some position) :
    (rotateCameraAroundBench (MathEnv.mk Real.pi Real.cos Real.sin Real.sqrt) false
        st).state.camera.position =
      { x := position.x + (st.camera.position.x - position.x) * Real.cos (Real.pi / 36) -
          (st.camera.position.z - position.z) * Real.sin (Real.pi / 36)
        y := st.camera.position.y
        z := position.z + (st.camera.position.x - position.x) * Real.sin (Real.pi / 36) +
          (st.camera.position.z - position.z) * Real.cos (Real.pi / 36) } := by
  rw [rotateCameraAroundBench_of_some _ false st position h]
  simp [Camera.lookAt]

theorem rotate_true_position (st : State ℝ) (position : Vector3 ℝ)
    (h : st.bench = some position) :
    (rotateCameraAroundBench (MathEnv.mk Real.pi Real.cos Real.sin Real.sqrt) true
        st).state.camera.position =
      { x := position.x + (st.camera.position.x - position.x) * Real.cos (Real.pi / 36) +
          (st.camera.position.z - position.z) * Real.sin (Real.pi / 36)
        y := st.camera.position.y
        z := position.z - (st.camera.position.x - position.x) * Real.sin (Real.pi / 36) +
          (st.camera.position.z - position.z) * Real.cos (Real.pi / 36) } := by
  rw [rotateCameraAroundBench_of_some _ true st position h]
  simp only [Camera.lookAt, if_true, neg_div, Real.cos_neg, Real.sin_neg]
  ext
  · simp
  · simp
  · simp
    ring

theorem rotate_bench (clockwise : Bool) (st : State ℝ) (position : Vector3 ℝ)
    (h : st.bench = some position) :
    (rotateCameraAroundBench (MathEnv.mk Real.pi Real.cos Real.sin Real.sqrt) clockwise
        st).state.bench = some position ∧
      (rotateCameraAroundBench (MathEnv.mk Real.pi Real.cos Real.sin Real.sqrt) clockwise
        st).fault = none := by
  rw [rotateCameraAroundBench_of_some _ clockwise st position h]
  exact ⟨h, rfl⟩

/-- C1: with the bench loaded, `rotateCameraAroundBench(false)` followed by
`rotateCameraAroundBench(true)`, and the two in the opposite order, run without
a fault and bring the camera offset from the pivot, in x and in z, back to
what it was. -/
theorem rotate_then_rotate_back (st : State ℝ) (position : Vector3 ℝ)
    (h : st.bench = some position) :
    ((rotateCameraAroundBench (MathEnv.mk Real.pi Real.cos Real.sin Real.sqrt) true
          (rotateCameraAroundBench (MathEnv.mk Real.pi Real.cos Real.sin Real.sqrt) false
            st).state).fault = none ∧
        (rotateCameraAroundBench (MathEnv.mk Real.pi Real.cos Real.sin Real.sqrt) true
          (rotateCameraAroundBench (MathEnv.mk Real.pi Real.cos Real.sin Real.sqrt) false
            st).state).state.camera.position.x - position.x =
          st.camera.position.x - position.x ∧
        (rotateCameraAroundBench (MathEnv.mk Real.pi Real.cos Real.sin Real.sqrt) true
          (rotateCameraAroundBench (MathEnv.mk Real.pi Real.cos Real.sin Real.sqrt) false
            st).state).state.camera.position.z - position.z =
          st.camera.position.z - position.z) ∧
      ((rotateCameraAroundBench (MathEnv.mk Real.pi Real.cos Real.sin Real.sqrt) false
          (rotateCameraAroundBench (MathEnv.mk Real.pi Real.cos Real.sin Real.sqrt) true
            st).state).fault = none ∧
        (rotateCameraAroundBench (MathEnv.mk Real.pi Real.cos Real.sin Real.sqrt) false
          (rotateCameraAroundBench (MathEnv.mk Real.pi Real.cos Real.sin Real.sqrt) true
            st).state).state.camera.position.x - position.x =
          st.camera.position.x - position.x ∧
        (rotateCameraAroundBench (MathEnv.mk Real.pi Real.cos Real.sin Real.sqrt) false
          (rotateCameraAroundBench (MathEnv.mk Real.pi Real.cos Real.sin Real.sqrt) true
            st).state).state.camera.position.z - position.z =
          st.camera.position.z - position.z) := by
  have hid := Real.cos_sq_add_sin_sq (Real.pi / 36)
  have hf := rotate_bench false st position h
  have ht := rotate_bench true st position h
  refine ⟨⟨(rotate_bench true _ position hf.1).2, ?_, ?_⟩,
    ⟨(rotate_bench false _ position ht.1).2, ?_, ?_⟩⟩
  · rw [rotate_true_position _ position hf.1, rotate_false_position st position h]
    simp only
    linear_combination (st.camera.position.x - position.x) * hid
  · rw [rotate_true_position _ position hf.1, rotate_false_position st position h]
    simp only
    linear_combination (st.camera.position.z - position.z) * hid
  · rw [rotate_false_position _ position ht.1, rotate_true_position st position h]
    simp only
    linear_combination (st.camera.position.x - position.x) * hid
  · rw [rotate_false_position _ position ht.1, rotate_true_position st position h]
    simp only
    linear_combination (st.camera.position.z - position.z) * hid

/-- C2: with the bench loaded, one call of `rotateCameraAroundBench`, in either
direction, keeps the squared distance of the camera from the pivot in the
xz-plane and keeps the camera height. -/
theorem rotate_preserves_radius_and_height (clockwise : Bool) (st : State ℝ)
    (position : Vector3 ℝ) (h : st.bench = some position) :
    ((rotateCameraAroundBench (MathEnv.mk Real.pi Real.cos Real.sin Real.sqrt) clockwise
            st).state.camera.position.x - position.x) ^ 2 +
        ((rotateCameraAroundBench (MathEnv.mk Real.pi Real.cos Real.sin Real.sqrt) clockwise
            st).state.camera.position.z - position.z) ^ 2 =
        (st.camera.position.x - position.x) ^ 2 + (st.camera.position.z - position.z) ^ 2 ∧
      (rotateCameraAroundBench (MathEnv.mk Real.pi Real.cos Real.sin Real.sqrt) clockwise
          st).state.camera.position.y = st.camera.position.y := by
  have hid := Real.cos_sq_add_sin_sq (Real.pi / 36)
  cases clockwise
  · rw [rotate_false_position st position h]
    refine ⟨?_, rfl⟩
    simp only
    linear_combination
      ((st.camera.position.x - position.x) ^ 2 + (st.camera.position.z - position.z) ^ 2) * hid
  · rw [rotate_true_position st position h]
    refine ⟨?_, rfl⟩
    simp only
    linear_combination
      ((st.camera.position.x - position.x) ^ 2 + (st.camera.position.z - position.z) ^ 2) * hid

/-! ## Moving along the view direction, over the reals -/

theorem lookAt_direction_of_scaled (p b u d0 : Vector3 ℝ) (k : ℝ) (hk : 0 < k)
    (hu : u.lengthSq = 1) (hx : p.x - b.x = k * u.x) (hy : p.y - b.y = k * u.y)
    (hz : p.z - b.z = k * u.z) :
    (Camera.lookAt (MathEnv.mk Real.pi Real.cos Real.sin Real.sqrt) b
        { position := p, direction := d0 }).direction = u.negate := by
  have hsq : (p.sub b).lengthSq = k ^ 2 := by
    unfold Vector3.lengthSq at hu ⊢
    simp only [Vector3.sub, hx, hy, hz]
    linear_combination k ^ 2 * hu
  have hne : ¬ (p.sub b).lengthSq = 0 := by
    rw [hsq]
    exact pow_ne_zero 2 hk.ne'
  have hroot : Real.sqrt (k ^ 2) = k := Real.sqrt_sq hk.le
  simp only [Camera.lookAt]
  rw [if_neg hne]
  simp only [Vector3.normalize, Vector3.length, hsq, hroot, hk.ne', if_false, Vector3.negate]
  simp only [Vector3.sub, hx, hy, hz]
  ext
  · field_simp
  · field_simp
  · field_simp

theorem lookAt_direction_unit (p b d0 : Vector3 ℝ) :
    ∃ (u : Vector3 ℝ) (k : ℝ), 0 ≤ k ∧ u.lengthSq = 1 ∧
      (Camera.lookAt (MathEnv.mk Real.pi Real.cos Real.sin Real.sqrt) b
        { position := p, direction := d0 }).direction = u.negate ∧
      p.x - b.x = k * u.x ∧ p.y - b.y = k * u.y ∧ p.z - b.z = k * u.z := by
  by_cases h0 : (p.sub b).lengthSq = 0
  · have hsplit : (p.x - b.x) * (p.x - b.x) + (p.y - b.y) * (p.y - b.y) +
        (p.z - b.z) * (p.z - b.z) = 0 := h0
    have hx : p.x - b.x = 0 :=
      mul_self_eq_zero.mp (le_antisymm
        (by linarith [mul_self_nonneg (p.y - b.y), mul_self_nonneg (p.z - b.z)])
        (mul_self_nonneg _))
    have hy : p.y - b.y = 0 :=
      mul_self_eq_zero.mp (le_antisymm
        (by linarith [mul_self_nonneg (p.x - b.x), mul_self_nonneg (p.z - b.z)])
        (mul_self_nonneg _))
    have hz : p.z - b.z = 0 :=
      mul_self_eq_zero.mp (le_antisymm
        (by linarith [mul_self_nonneg (p.x - b.x), mul_self_nonneg (p.y - b.y)])
        (mul_self_nonneg _))
    refine ⟨⟨0, 0, 1⟩, 0, le_refl 0, by simp [Vector3.lengthSq], ?_, by simp [hx], by simp [hy],
      by simp [hz]⟩
    simp only [Camera.lookAt, h0, if_true]
    simp [Vector3.sub, Vector3.lengthSq, Vector3.normalize, Vector3.length, Vector3.negate, hx,
      hy]
  · have hnonneg : 0 ≤ (p.sub b).lengthSq :=
      add_nonneg (add_nonneg (mul_self_nonneg _) (mul_self_nonneg _)) (mul_self_nonneg _)
    have hpos : 0 < (p.sub b).lengthSq := lt_of_le_of_ne hnonneg (Ne.symm h0)
    have hroot : 0 < Real.sqrt (p.sub b).lengthSq := Real.sqrt_pos.mpr hpos
    have hmul : Real.sqrt (p.sub b).lengthSq * Real.sqrt (p.sub b).lengthSq =
        (p.x - b.x) * (p.x - b.x) + (p.y - b.y) * (p.y - b.y) + (p.z - b.z) * (p.z - b.z) :=
      Real.mul_self_sqrt hnonneg
    refine ⟨⟨(p.x - b.x) / Real.sqrt (p.sub b).lengthSq,
        (p.y - b.y) / Real.sqrt (p.sub b).lengthSq,
        (p.z - b.z) / Real.sqrt (p.sub b).lengthSq⟩,
      Real.sqrt (p.sub b).lengthSq, hroot.le, ?_, ?_, ?_, ?_, ?_⟩
    · generalize Real.sqrt (p.sub b).lengthSq = s at hroot hmul
      simp only [Vector3.lengthSq]
      field_simp
      linarith
    · simp only [Camera.lookAt]
      rw [if_neg h0]
      simp only [Vector3.normalize, Vector3.length]
      rw [if_neg hroot.ne']
      rfl
    · field_simp
    · field_simp
    · field_simp

/-- C4: in every state of a run in which the bench is loaded, `moveCameraForward`
followed by `moveCameraBackward` runs without a fault and leaves the camera at
the position it started from. -/
theorem forward_then_backward (st : State ℝ)
    (hst : Reachable (MathEnv.mk Real.pi Real.cos Real.sin Real.sqrt) st)
    (position : Vector3 ℝ) (h : st.bench = some position) :
    (moveCameraForward (MathEnv.mk Real.pi Real.cos Real.sin Real.sqrt) st).fault = none ∧
      (moveCameraBackward (MathEnv.mk Real.pi Real.cos Real.sin Real.sqrt)
        (moveCameraForward (MathEnv.mk Real.pi Real.cos Real.sin Real.sqrt)
          st).state).fault = none ∧
      (moveCameraBackward (MathEnv.mk Real.pi Real.cos Real.sin Real.sqrt)
        (moveCameraForward (MathEnv.mk Real.pi Real.cos Real.sin Real.sqrt)
          st).state).state.camera.position = st.camera.position := by
  have haim := (Reachable.inv _ st hst).2 position h
  obtain ⟨u, k, hk, hu, hdir, hx, hy, hz⟩ :=
    lookAt_direction_unit st.camera.position position st.camera.direction
  have hd : st.camera.direction = u.negate := by
    rw [haim, ← hdir]
  have hf := moveCameraForward_of_some (MathEnv.mk Real.pi Real.cos Real.sin Real.sqrt) st
    position h
  have hb1 : (moveCameraForward (MathEnv.mk Real.pi Real.cos Real.sin Real.sqrt)
      st).state.bench = some position := by
    rw [hf]
    exact h
  refine ⟨by rw [hf], by rw [moveCameraBackward_of_some _ _ position hb1], ?_⟩
  rw [moveCameraBackward_of_some _ _ position hb1, hf]
  have hfwd : (Camera.lookAt (MathEnv.mk Real.pi Real.cos Real.sin Real.sqrt) position
      { position := st.camera.position.addScaledVector st.camera.direction (-1),
        direction := st.camera.direction }).direction = u.negate := by
    apply lookAt_direction_of_scaled _ _ u _ (k + 1) (by linarith) hu
    · simp only [Vector3.addScaledVector, hd, Vector3.negate]
      linear_combination hx
    · simp only [Vector3.addScaledVector, hd, Vector3.negate]
      linear_combination hy
    · simp only [Vector3.addScaledVector, hd, Vector3.negate]
      linear_combination hz
  simp only [Camera.lookAt_position, hfwd]
  simp only [Camera.lookAt, Vector3.addScaledVector, hd, Vector3.negate]
  ext
  · simp
  · simp
  · simp

/-! ## The state after the bench load -/

theorem afterBenchLoad_reachable {K : Type} [LinearOrderedField K] [FloorRing K]
    (M : MathEnv K) : Reachable M (afterBenchLoad M) := by
  apply Reachable.step _ _ Reachable.init
  intro gltf hg object hmem
  simp only [Event.payload, Option.some.injEq] at hg
  subst hg
  simp only [sampleBench, SceneNode.objects, SceneNode.objectsOfChildren,
    List.mem_singleton] at hmem
  subst hmem
  rfl

theorem afterBenchLoad_bench {K : Type} [LinearOrderedField K] [FloorRing K] (M : MathEnv K) :
    (afterBenchLoad M).bench = some ⟨-11, 0, 0⟩ :=
  rfl

theorem afterBenchLoad_position {K : Type} [LinearOrderedField K] [FloorRing K]
    (M : MathEnv K) : (afterBenchLoad M).camera.position = ⟨0, 5, 30⟩ :=
  rfl

/-- C1, witness: the state after the bench load, pivot at `(-11, 0, 0)`. -/
theorem rotate_then_rotate_back_witness :
    (afterBenchLoad (MathEnv.mk Real.pi Real.cos Real.sin Real.sqrt)).bench =
        some ⟨-11, 0, 0⟩ ∧
      (rotateCameraAroundBench (MathEnv.mk Real.pi Real.cos Real.sin Real.sqrt) true
          (rotateCameraAroundBench (MathEnv.mk Real.pi Real.cos Real.sin Real.sqrt) false
            (afterBenchLoad (MathEnv.mk Real.pi Real.cos Real.sin Real.sqrt))).state
          ).state.camera.position.x - (-11) =
        (afterBenchLoad (MathEnv.mk Real.pi Real.cos Real.sin Real.sqrt)).camera.position.x -
          (-11) :=
  ⟨rfl, (rotate_then_rotate_back _ ⟨-11, 0, 0⟩ rfl).1.2.1⟩

/-- C2, witness: the state after the bench load, rotated clockwise. -/
theorem rotate_preserves_radius_and_height_witness :
    (afterBenchLoad (MathEnv.mk Real.pi Real.cos Real.sin Real.sqrt)).bench =
        some ⟨-11, 0, 0⟩ ∧
      (rotateCameraAroundBench (MathEnv.mk Real.pi Real.cos Real.sin Real.sqrt) true
          (afterBenchLoad (MathEnv.mk Real.pi Real.cos Real.sin Real.sqrt))
          ).state.camera.position.y =
        (afterBenchLoad (MathEnv.mk Real.pi Real.cos Real.sin Real.sqrt)).camera.position.y :=
  ⟨rfl, (rotate_preserves_radius_and_height true _ ⟨-11, 0, 0⟩ rfl).2⟩

/-- C4, witness: the state after the bench load. -/
theorem forward_then_backward_witness :
    Reachable (MathEnv.mk Real.pi Real.cos Real.sin Real.sqrt)
        (afterBenchLoad (MathEnv.mk Real.pi Real.cos Real.sin Real.sqrt)) ∧
      (afterBenchLoad (MathEnv.mk Real.pi Real.cos Real.sin Real.sqrt)).bench =
        some ⟨-11, 0, 0⟩ ∧
      (moveCameraBackward (MathEnv.mk Real.pi Real.cos Real.sin Real.sqrt)
          (moveCameraForward (MathEnv.mk Real.pi Real.cos Real.sin Real.sqrt)
            (afterBenchLoad (MathEnv.mk Real.pi Real.cos Real.sin Real.sqrt))).state
          ).state.camera.position =
        (afterBenchLoad (MathEnv.mk Real.pi Real.cos Real.sin Real.sqrt)).camera.position :=
  ⟨afterBenchLoad_reachable _, rfl,
    (forward_then_backward _ (afterBenchLoad_reachable _) ⟨-11, 0, 0⟩ rfl).2.2⟩

/-! ## Key dispatch and the sign of the rotation -/

theorem sin_pi_div_36_pos : 0 < Real.sin (Real.pi / 36) :=
  Real.sin_pos_of_pos_of_lt_pi (by positivity) (by linarith [Real.pi_pos])

/-- C5, as the code has it: key code 65 (A) runs
`rotateCameraAroundBench(true)`, which turns the camera offset from the pivot
by the negative angle `-π/36`; key code 68 (D) runs
`rotateCameraAroundBench(false)`, which turns it by the positive angle
`+π/36`; key codes 87 and 83 run `moveCameraForward` and
`moveCameraBackward`. -/
theorem onDocumentKeyDown_dispatch (st : State ℝ) (position : Vector3 ℝ)
    (h : st.bench = some position) :
    (onDocumentKeyDown (MathEnv.mk Real.pi Real.cos Real.sin Real.sqrt) 65 st =
        rotateCameraAroundBench (MathEnv.mk Real.pi Real.cos Real.sin Real.sqrt) true st ∧
      (onDocumentKeyDown (MathEnv.mk Real.pi Real.cos Real.sin Real.sqrt) 65
          st).state.camera.position.x - position.x =
        (st.camera.position.x - position.x) * Real.cos (-(Real.pi / 36)) -
          (st.camera.position.z - position.z) * Real.sin (-(Real.pi / 36)) ∧
      (onDocumentKeyDown (MathEnv.mk Real.pi Real.cos Real.sin Real.sqrt) 65
          st).state.camera.position.z - position.z =
        (st.camera.position.x - position.x) * Real.sin (-(Real.pi / 36)) +
          (st.camera.position.z - position.z) * Real.cos (-(Real.pi / 36))) ∧
    (onDocumentKeyDown (MathEnv.mk Real.pi Real.cos Real.sin Real.sqrt) 68 st =
        rotateCameraAroundBench (MathEnv.mk Real.pi Real.cos Real.sin Real.sqrt) false st ∧
      (onDocumentKeyDown (MathEnv.mk Real.pi Real.cos Real.sin Real.sqrt) 68
          st).state.camera.position.x - position.x =
        (st.camera.position.x - position.x) * Real.cos (Real.pi / 36) -
          (st.camera.position.z - position.z) * Real.sin (Real.pi / 36) ∧
      (onDocumentKeyDown (MathEnv.mk Real.pi Real.cos Real.sin Real.sqrt) 68
          st).state.camera.position.z - position.z =
        (st.camera.position.x - position.x) * Real.sin (Real.pi / 36) +
          (st.camera.position.z - position.z) * Real.cos (Real.pi / 36)) ∧
    onDocumentKeyDown (MathEnv.mk Real.pi Real.cos Real.sin Real.sqrt) 87 st =
      moveCameraForward (MathEnv.mk Real.pi Real.cos Real.sin Real.sqrt) st ∧
    onDocumentKeyDown (MathEnv.mk Real.pi Real.cos Real.sin Real.sqrt) 83 st =
      moveCameraBackward (MathEnv.mk Real.pi Real.cos Real.sin Real.sqrt) st := by
  have h65 : onDocumentKeyDown (MathEnv.mk Real.pi Real.cos Real.sin Real.sqrt) 65 st =
      rotateCameraAroundBench (MathEnv.mk Real.pi Real.cos Real.sin Real.sqrt) true st := rfl
  have h68 : onDocumentKeyDown (MathEnv.mk Real.pi Real.cos Real.sin Real.sqrt) 68 st =
      rotateCameraAroundBench (MathEnv.mk Real.pi Real.cos Real.sin Real.sqrt) false st := rfl
  refine ⟨⟨h65, ?_, ?_⟩, ⟨h68, ?_, ?_⟩, rfl, rfl⟩
  · rw [h65, rotate_true_position st position h, Real.cos_neg, Real.sin_neg]
    simp only
    ring
  · rw [h65, rotate_true_position st position h, Real.cos_neg, Real.sin_neg]
    simp only
    ring
  · rw [h68, rotate_false_position st position h]
    simp only
    ring
  · rw [h68, rotate_false_position st position h]
    simp only
    ring

/-- C5, witness: the state after the bench load; key code 87 runs
`moveCameraForward`. -/
theorem onDocumentKeyDown_dispatch_witness :
    (afterBenchLoad (MathEnv.mk Real.pi Real.cos Real.sin Real.sqrt)).bench =
        some ⟨-11, 0, 0⟩ ∧
      onDocumentKeyDown (MathEnv.mk Real.pi Real.cos Real.sin Real.sqrt) 87
          (afterBenchLoad (MathEnv.mk Real.pi Real.cos Real.sin Real.sqrt)) =
        moveCameraForward (MathEnv.mk Real.pi Real.cos Real.sin Real.sqrt)
          (afterBenchLoad (MathEnv.mk Real.pi Real.cos Real.sin Real.sqrt)) :=
  ⟨rfl, (onDocumentKeyDown_dispatch _ ⟨-11, 0, 0⟩ rfl).2.2.1⟩

/-- C5, counterexample: in the state after the bench load (camera offset
`(11, 30)` from the pivot) key code 65 does not turn the offset by `+π/36`: the
x offset it leaves is not `11 cos(π/36) - 30 sin(π/36)`. -/
theorem key_65_is_not_positive_rotation :
    ¬ ((onDocumentKeyDown (MathEnv.mk Real.pi Real.cos Real.sin Real.sqrt) 65
          (afterBenchLoad (MathEnv.mk Real.pi Real.cos Real.sin Real.sqrt))
          ).state.camera.position.x - (-11) =
        ((afterBenchLoad (MathEnv.mk Real.pi Real.cos Real.sin Real.sqrt)).camera.position.x -
            (-11)) * Real.cos (Real.pi / 36) -
          ((afterBenchLoad (MathEnv.mk Real.pi Real.cos Real.sin Real.sqrt)).camera.position.z -
            0) * Real.sin (Real.pi / 36)) := by
  intro hclaim
  have h65 : onDocumentKeyDown (MathEnv.mk Real.pi Real.cos Real.sin Real.sqrt) 65
      (afterBenchLoad (MathEnv.mk Real.pi Real.cos Real.sin Real.sqrt)) =
      rotateCameraAroundBench (MathEnv.mk Real.pi Real.cos Real.sin Real.sqrt) true
        (afterBenchLoad (MathEnv.mk Real.pi Real.cos Real.sin Real.sqrt)) := rfl
  rw [h65, rotate_true_position _ ⟨-11, 0, 0⟩ (afterBenchLoad_bench _),
    afterBenchLoad_position] at hclaim
  simp only at hclaim
  linarith [sin_pi_div_36_pos]

/-! ## The worked example -/

theorem pi_div_36_bounds : 0.0872664 < Real.pi / 36 ∧ Real.pi / 36 < 0.0872665 := by
  constructor
  · linarith [Real.pi_gt_d6]
  · linarith [Real.pi_lt_d6]

theorem sin_pi_div_36_bounds :
    0.087 ≤ Real.sin (Real.pi / 36) ∧ Real.sin (Real.pi / 36) ≤ 0.0873 := by
  obtain ⟨hlo, hhi⟩ := pi_div_36_bounds
  have hpos : 0 < Real.pi / 36 := by linarith
  have hcube : (Real.pi / 36) ^ 3 ≤ 0.0872665 ^ 3 := pow_le_pow_left₀ hpos.le hhi.le 3
  have hconst : (0.0872665 : ℝ) ^ 3 ≤ 0.0007 := by norm_num
  constructor
  · linarith [Real.sin_gt_sub_cube hpos (by linarith)]
  · linarith [Real.sin_lt hpos]

theorem cos_pi_div_36_bounds :
    0.9961 ≤ Real.cos (Real.pi / 36) ∧ Real.cos (Real.pi / 36) ≤ 0.9963 := by
  obtain ⟨hlo, hhi⟩ := pi_div_36_bounds
  have hpos : 0 < Real.pi / 36 := by linarith
  have habs : |Real.pi / 36| = Real.pi / 36 := abs_of_pos hpos
  have hbound := Real.cos_bound (show |Real.pi / 36| ≤ 1 by rw [habs]; linarith)
  rw [habs, abs_le] at hbound
  have hsq_hi : (Real.pi / 36) ^ 2 ≤ 0.0872665 ^ 2 := pow_le_pow_left₀ hpos.le hhi.le 2
  have hsq_lo : (0.0872664 : ℝ) ^ 2 ≤ (Real.pi / 36) ^ 2 :=
    pow_le_pow_left₀ (by norm_num) hlo.le 2
  have hfour : (Real.pi / 36) ^ 4 ≤ 0.0872665 ^ 4 := pow_le_pow_left₀ hpos.le hhi.le 4
  have hc2 : (0.0872665 : ℝ) ^ 2 ≤ 0.00762 := by norm_num
  have hc2lo : (0.00761 : ℝ) ≤ 0.0872664 ^ 2 := by norm_num
  have hc4 : (0.0872665 : ℝ) ^ 4 ≤ 0.00006 := by norm_num
  constructor
  · linarith [hbound.1]
  · linarith [hbound.2]

/-- C10, as the code has it: from the start-up camera position `(0, 5, 30)`
with the pivot at `(-11, 0, 0)`, one `rotateCameraAroundBench(false)` (angle
`+π/36`, offsets 11 and 30) puts the camera at
`x = -11 + 11 cos(π/36) - 30 sin(π/36)` and `z = 11 sin(π/36) + 30 cos(π/36)`,
which lie within 0.01 of -2.657 and 30.845. -/
theorem rotate_from_start :
    (rotateCameraAroundBench (MathEnv.mk Real.pi Real.cos Real.sin Real.sqrt) false
          (afterBenchLoad (MathEnv.mk Real.pi Real.cos Real.sin Real.sqrt))
          ).state.camera.position.x =
        -11 + 11 * Real.cos (Real.pi / 36) - 30 * Real.sin (Real.pi / 36) ∧
      (rotateCameraAroundBench (MathEnv.mk Real.pi Real.cos Real.sin Real.sqrt) false
          (afterBenchLoad (MathEnv.mk Real.pi Real.cos Real.sin Real.sqrt))
          ).state.camera.position.z =
        11 * Real.sin (Real.pi / 36) + 30 * Real.cos (Real.pi / 36) ∧
      |(rotateCameraAroundBench (MathEnv.mk Real.pi Real.cos Real.sin Real.sqrt) false
          (afterBenchLoad (MathEnv.mk Real.pi Real.cos Real.sin Real.sqrt))
          ).state.camera.position.x - (-2.657)| ≤ 0.01 ∧
      |(rotateCameraAroundBench (MathEnv.mk Real.pi Real.cos Real.sin Real.sqrt) false
          (afterBenchLoad (MathEnv.mk Real.pi Real.cos Real.sin Real.sqrt))
          ).state.camera.position.z - 30.845| ≤ 0.01 := by
  obtain ⟨hs1, hs2⟩ := sin_pi_div_36_bounds
  obtain ⟨hc1, hc2⟩ := cos_pi_div_36_bounds
  rw [rotate_false_position _ ⟨-11, 0, 0⟩ (afterBenchLoad_bench _), afterBenchLoad_position]
  simp only
  refine ⟨by ring, by ring, ?_, ?_⟩
  · rw [abs_le]
    constructor <;> linarith
  · rw [abs_le]
    constructor <;> linarith

/-- C10, counterexample: after one `rotateCameraAroundBench(false)` from the
start-up position the camera is not within 0.01 of `(-2.582, 40.48)` in
`(x, z)`; nor is it after one `rotateCameraAroundBench(true)`. -/
theorem rotate_from_start_is_not_spec_value :
    ¬ (|(rotateCameraAroundBench (MathEnv.mk Real.pi Real.cos Real.sin Real.sqrt) false
            (afterBenchLoad (MathEnv.mk Real.pi Real.cos Real.sin Real.sqrt))
            ).state.camera.position.x - (-2.582)| ≤ 0.01 ∧
        |(rotateCameraAroundBench (MathEnv.mk Real.pi Real.cos Real.sin Real.sqrt) false
            (afterBenchLoad (MathEnv.mk Real.pi Real.cos Real.sin Real.sqrt))
            ).state.camera.position.z - 40.48| ≤ 0.01) ∧
      ¬ (|(rotateCameraAroundBench (MathEnv.mk Real.pi Real.cos Real.sin Real.sqrt) true
            (afterBenchLoad (MathEnv.mk Real.pi Real.cos Real.sin Real.sqrt))
            ).state.camera.position.x - (-2.582)| ≤ 0.01 ∧
        |(rotateCameraAroundBench (MathEnv.mk Real.pi Real.cos Real.sin Real.sqrt) true
            (afterBenchLoad (MathEnv.mk Real.pi Real.cos Real.sin Real.sqrt))
            ).state.camera.position.z - 40.48| ≤ 0.01) := by
  obtain ⟨hs1, hs2⟩ := sin_pi_div_36_bounds
  obtain ⟨hc1, hc2⟩ := cos_pi_div_36_bounds
  constructor
  · rintro ⟨_, hz⟩
    rw [rotate_false_position _ ⟨-11, 0, 0⟩ (afterBenchLoad_bench _), afterBenchLoad_position,
      abs_le] at hz
    simp only at hz
    linarith [hz.1]
  · rintro ⟨_, hz⟩
    rw [rotate_true_position _ ⟨-11, 0, 0⟩ (afterBenchLoad_bench _), afterBenchLoad_position,
      abs_le] at hz
    simp only at hz
    linarith [hz.1]

end SceneController
